import Mathlib

/-!
Verification of the EnKoat contractor-quote portal's validation, retrieval
and export logic, as a shallow embedding of the JavaScript source
(server/src/controllers/quoteController.js, server/src/utils/validation.js,
server/src/models/Quote.js, server/src/utils/csvGenerator.js).

JS strings are modelled as Lean strings over their character lists; JS
numbers as rationals; timestamps and dates as integers on an abstract
millisecond timeline; the Mongo store as a list of quote documents with
deterministic query/sort semantics.
-/

namespace EnKoat

/-! ## JS string primitives used by the source -/

/-- Whitespace recognised by JS trim and by the regex class for whitespace,
restricted to the ASCII range this embedding uses. -/
def isJsSpace (c : Char) : Bool :=
  c = ' ' || c = '\t' || c = '\n' || c = '\r' || c = '\x0b' || c = '\x0c'

/-- Left part of JS trim: drop leading whitespace. -/
def trimLeft (l : List Char) : List Char := l.dropWhile isJsSpace

/-- Right part of JS trim: drop trailing whitespace. -/
def trimRight (l : List Char) : List Char := (l.reverse.dropWhile isJsSpace).reverse

/-- Model of JS String.prototype.trim. -/
def jsTrim (s : String) : String := ⟨trimRight (trimLeft s.data)⟩

/-- Model of JS String.prototype.length (UTF-16 units; all characters in
this development are in the basic plane, where it is the character count). -/
def jsLength (s : String) : Nat := s.data.length

/-- Model of JS toUpperCase on one character (ASCII range, the only range
exercised by state codes and roof types in this system). -/
def jsCharUpper (c : Char) : Char :=
  if 97 ≤ c.toNat ∧ c.toNat ≤ 122 then Char.ofNat (c.toNat - 32) else c

/-- Model of JS toLowerCase on one character (ASCII range). -/
def jsCharLower (c : Char) : Char :=
  if 65 ≤ c.toNat ∧ c.toNat ≤ 90 then Char.ofNat (c.toNat + 32) else c

/-- Model of JS String.prototype.toUpperCase. -/
def jsToUpperCase (s : String) : String := ⟨s.data.map jsCharUpper⟩

/-- Model of JS String.prototype.toLowerCase. -/
def jsToLowerCase (s : String) : String := ⟨s.data.map jsCharLower⟩

/-- Characters rewritten by the validator.js escape() sanitizer. -/
def isEscapeTarget (c : Char) : Bool :=
  c = '&' || c = '"' || c = '\'' || c = '<' || c = '>' || c = '/' ||
    c = '\\' || c = '\x60'

/-- Expansion of one character under validator.js escape(). -/
def escChar (c : Char) : List Char :=
  if c = '&' then "&amp;".data
  else if c = '"' then "&quot;".data
  else if c = '\'' then "&#x27;".data
  else if c = '<' then "&lt;".data
  else if c = '>' then "&gt;".data
  else if c = '/' then "&#x2F;".data
  else if c = '\\' then "&#x5C;".data
  else if c = '\x60' then "&#96;".data
  else [c]

/-- Model of validator.js escape(), the sanitizer appended by .escape() in
the controller's validation chains. The library performs sequential global
replaces of each special character by its HTML entity; since no entity
contains a character replaced by a later pass, the sequential replaces
coincide with this character-wise expansion. -/
def jsEscape (s : String) : String := ⟨s.data.flatMap escChar⟩

/-! ## server/src/utils/validation.js -/

/-- Characters kept by sanitizeString: letters, digits, whitespace,
hyphen, apostrophe. -/
def isSanitizeKept (c : Char) : Bool :=
  ('a' ≤ c && c ≤ 'z') || ('A' ≤ c && c ≤ 'Z') || ('0' ≤ c && c ≤ '9') ||
    isJsSpace c || c = '-' || c = '\''

/-- sanitizeString from validation.js: trim, then remove every character
outside letters, digits, whitespace, hyphen, apostrophe. -/
def sanitizeString (s : String) : String :=
  ⟨(jsTrim s).data.filter isSanitizeKept⟩

/-- validateRoofSize from validation.js: size strictly positive and at most
1,000,000 (inclusive upper bound). -/
def validateRoofSize (size : ℚ) : Bool :=
  decide (0 < size) && decide (size ≤ 1000000)

/-- The 50 US state codes listed in validation.js. -/
def validStateCodes : List String :=
  ["AL", "AK", "AZ", "AR", "CA", "CO", "CT", "DE", "FL", "GA",
   "HI", "ID", "IL", "IN", "IA", "KS", "KY", "LA", "ME", "MD",
   "MA", "MI", "MN", "MS", "MO", "MT", "NE", "NV", "NH", "NJ",
   "NM", "NY", "NC", "ND", "OH", "OK", "OR", "PA", "RI", "SC",
   "SD", "TN", "TX", "UT", "VT", "VA", "WA", "WV", "WI", "WY"]

/-- validateStateCode from validation.js: membership of the uppercased
input in the 50-entry state code list. -/
def validateStateCode (stateCode : String) : Bool :=
  validStateCodes.contains (jsToUpperCase stateCode)

/-- The enum accepted by validateRoofType in validation.js. -/
def validTypes : List String := ["Metal", "TPO", "Foam", "Other"]

/-- validateRoofType from validation.js: exact membership in the enum. -/
def validateRoofType (t : String) : Bool := validTypes.contains t

/-- Two years from now as computed by setFullYear(getFullYear() + 2),
modelled on the abstract integer timeline as a fixed span of 730 days of
milliseconds; no claim depends on the exact length of the span. -/
def twoYearsFrom (now : Int) : Int := now + 63072000000

/-- validateDate from validation.js: now up to two years from now. -/
def validateDate (now date : Int) : Bool :=
  decide (now ≤ date) && decide (date ≤ twoYearsFrom now)

/-- A JS runtime value as it may reach a validator through an untyped
request body. -/
inductive JSVal where
  | str (s : String)
  | num (q : ℚ)
  | boolean (b : Bool)
  | null
  | undef
deriving DecidableEq, Repr

/-- validateStateCode applied to an arbitrary JS value: the body first
evaluates stateCode.toUpperCase(), which throws a TypeError unless the
receiver is a string; on strings it returns the membership boolean. -/
def validateStateCodeJS : JSVal → Except String Bool
  | JSVal.str s => Except.ok (validateStateCode s)
  | _ => Except.error "TypeError"

/-- validateRoofType applied to an arbitrary JS value: Array.includes never
throws, so every non-string value simply fails the membership test. -/
def validateRoofTypeJS : JSVal → Except String Bool
  | JSVal.str s => Except.ok (validateRoofType s)
  | _ => Except.ok false

/-! ## Server-side per-field validators (quoteController.validateQuote) -/

/-- The raw request body of a quote submission, with each field already
decoded from JSON at its natural type. -/
structure RawQuote where
  contractorName : String
  company : String
  roofSize : ℚ
  roofType : String
  projectCity : String
  projectState : String
  projectDate : Int
deriving DecidableEq, Repr

/-- One character of the name/city character class: letters, whitespace,
hyphen, apostrophe. -/
def isNameClassChar (c : Char) : Bool :=
  ('a' ≤ c && c ≤ 'z') || ('A' ≤ c && c ≤ 'Z') || isJsSpace c ||
    c = '-' || c = '\''

/-- Full match of the anchored one-or-more name/city character class. -/
def matchesNameClass (s : String) : Bool :=
  !s.data.isEmpty && s.data.all isNameClassChar

/-- isLength with min 2 and max 100, applied to the trimmed value. -/
def lengthBetween2And100 (s : String) : Bool :=
  decide (2 ≤ jsLength s) && decide (jsLength s ≤ 100)

/-- Whether Number.prototype.toString renders a value in exponential
notation: a nonzero magnitude below 10^-6 or at least 10^21 (the bounds
are written with mkRat so that the predicate evaluates by kernel
reduction). -/
def jsRendersExponential (q : ℚ) : Bool :=
  decide (q ≠ 0) &&
    ((decide (mkRat (-1) 1000000 < q) && decide (q < mkRat 1 1000000)) ||
      decide ((1000000000000000000000 : ℚ) ≤ q) ||
      decide (q ≤ -1000000000000000000000))

/-- The isNumeric check on roofSize: express-validator stringifies the JS
number and validator.js isNumeric matches an optional sign, digits and one
decimal point, with no exponent clause - so the check fails exactly on the
values whose string rendering is exponential. -/
def roofSizeIsNumeric (q : ℚ) : Bool := !jsRendersExponential q

/-- isFloat with gt 0 and lt 1000000: both bounds strict, so 1,000,000
itself is rejected. -/
def roofSizeFloatRange (q : ℚ) : Bool :=
  decide (0 < q) && decide (q < 1000000)

/-- The server's whole per-field accept decision for roofSize:
isNumeric() followed by isFloat(gt 0, lt 1000000). -/
def serverValidRoofSize (q : ℚ) : Bool :=
  roofSizeIsNumeric q && roofSizeFloatRange q

/-- The enum list inlined in the controller's isIn check. -/
def serverRoofTypes : List String := ["Metal", "TPO", "Foam", "Other"]

/-- isUppercase from validator.js: the value equals its own uppercasing. -/
def isUppercaseCheck (s : String) : Bool := s == jsToUpperCase s

/-- Full match of the anchored two-uppercase-letter state pattern. -/
def matchesTwoUpperLetters (s : String) : Bool :=
  s.data.length == 2 && s.data.all (fun c => 'A' ≤ c && c ≤ 'Z')

/-- The isDate check on projectDate: this embedding carries the date as an
already-parsed calendar date on the integer timeline, where the textual
format check cannot fail. -/
def projectDateIsDate (_d : Int) : Bool := true

/-- A structured validation error entry: the field name and the message
shown for it, as produced from the express-validator error array. -/
structure FieldError where
  field : String
  message : String
deriving DecidableEq, Repr

/-- Errors contributed by the contractorName chain: trim, isLength(2,100)
with the default message, matches(name class) with the custom message. -/
def contractorNameErrors (r : RawQuote) : List FieldError :=
  (if lengthBetween2And100 (jsTrim r.contractorName) then []
   else [⟨"contractorName", "Invalid value"⟩]) ++
  (if matchesNameClass (jsTrim r.contractorName) then []
   else [⟨"contractorName",
     "Contractor name must contain only letters, spaces, hyphens and apostrophes"⟩])

/-- Errors contributed by the company chain: trim, isLength(2,100). -/
def companyErrors (r : RawQuote) : List FieldError :=
  if lengthBetween2And100 (jsTrim r.company) then []
  else [⟨"company", "Invalid value"⟩]

/-- Errors contributed by the roofSize chain: isNumeric with the default
message, isFloat(gt 0, lt 1000000) with the custom message. -/
def roofSizeErrors (r : RawQuote) : List FieldError :=
  (if roofSizeIsNumeric r.roofSize then []
   else [⟨"roofSize", "Invalid value"⟩]) ++
  (if roofSizeFloatRange r.roofSize then []
   else [⟨"roofSize", "Roof size must be between 1 and 1,000,000 square feet"⟩])

/-- Errors contributed by the roofType chain: isIn over the enum. -/
def roofTypeErrors (r : RawQuote) : List FieldError :=
  if serverRoofTypes.contains r.roofType then []
  else [⟨"roofType", "Invalid roof type"⟩]

/-- Errors contributed by the projectCity chain: trim, matches(name class). -/
def projectCityErrors (r : RawQuote) : List FieldError :=
  if matchesNameClass (jsTrim r.projectCity) then []
  else [⟨"projectCity",
    "City name must contain only letters, spaces, hyphens and apostrophes"⟩]

/-- Errors contributed by the projectState chain: trim, isLength(2,2),
isUppercase, matches(two uppercase letters) with the custom message. -/
def projectStateErrors (r : RawQuote) : List FieldError :=
  (if (jsLength (jsTrim r.projectState) == 2 &&
       decide (jsLength (jsTrim r.projectState) ≤ 2)) then []
   else [⟨"projectState", "Invalid value"⟩]) ++
  (if isUppercaseCheck (jsTrim r.projectState) then []
   else [⟨"projectState", "Invalid value"⟩]) ++
  (if matchesTwoUpperLetters (jsTrim r.projectState) then []
   else [⟨"projectState", "Please use 2-letter state code (e.g., CA)"⟩])

/-- Errors contributed by the projectDate chain: isDate with the default
message, then the custom window check whose thrown message depends on the
violated bound. -/
def projectDateErrors (now : Int) (r : RawQuote) : List FieldError :=
  (if projectDateIsDate r.projectDate then []
   else [⟨"projectDate", "Invalid value"⟩]) ++
  (if r.projectDate < now then
    [⟨"projectDate", "Project date cannot be in the past"⟩]
   else if twoYearsFrom now < r.projectDate then
    [⟨"projectDate", "Project date cannot be more than 2 years in the future"⟩]
   else [])

/-- The full express-validator error array for a submission: every chain
runs, and every failing check appends its entry - validation is not
fail-fast. -/
def runValidation (now : Int) (r : RawQuote) : List FieldError :=
  contractorNameErrors r ++ companyErrors r ++ roofSizeErrors r ++
    roofTypeErrors r ++ projectCityErrors r ++ projectStateErrors r ++
    projectDateErrors now r

/-- The seven validated fields of a quote submission. -/
inductive QField where
  | contractorName
  | company
  | roofSize
  | roofType
  | projectCity
  | projectState
  | projectDate
deriving DecidableEq, Repr

/-- The request-body key of each validated field. -/
def QField.key : QField → String
  | .contractorName => "contractorName"
  | .company => "company"
  | .roofSize => "roofSize"
  | .roofType => "roofType"
  | .projectCity => "projectCity"
  | .projectState => "projectState"
  | .projectDate => "projectDate"

/-- The server's accept decision for one field: the conjunction of the
checks of that field's validation chain. -/
def fieldValid (now : Int) (r : RawQuote) : QField → Bool
  | .contractorName =>
      lengthBetween2And100 (jsTrim r.contractorName) &&
        matchesNameClass (jsTrim r.contractorName)
  | .company => lengthBetween2And100 (jsTrim r.company)
  | .roofSize => roofSizeIsNumeric r.roofSize && roofSizeFloatRange r.roofSize
  | .roofType => serverRoofTypes.contains r.roofType
  | .projectCity => matchesNameClass (jsTrim r.projectCity)
  | .projectState =>
      (jsLength (jsTrim r.projectState) == 2 &&
        decide (jsLength (jsTrim r.projectState) ≤ 2)) &&
      isUppercaseCheck (jsTrim r.projectState) &&
      matchesTwoUpperLetters (jsTrim r.projectState)
  | .projectDate =>
      projectDateIsDate r.projectDate &&
      !(decide (r.projectDate < now) ||
        decide (twoYearsFrom now < r.projectDate))

/-! ## The persisted Quote document and the submission pipeline -/

/-- A persisted quote document. -/
structure Quote where
  contractorName : String
  company : String
  roofSize : ℚ
  roofType : String
  projectCity : String
  projectState : String
  projectDate : Int
  createdAt : Int
deriving DecidableEq, Repr

/-- The Mongoose document constructed from the request body after the
validation chains ran: the express-validator trim and escape sanitizers
already mutated the free-text body values, and the schema then applies its
setters: the sanitizeString custom setter followed by the built-in trim
(resp. uppercase for projectState). Timestamps are assigned at creation. -/
def persistQuote (now : Int) (r : RawQuote) : Quote :=
  { contractorName := jsTrim (sanitizeString (jsEscape (jsTrim r.contractorName)))
    company := jsTrim (sanitizeString (jsEscape (jsTrim r.company)))
    roofSize := r.roofSize
    roofType := r.roofType
    projectCity := jsTrim (sanitizeString (jsEscape (jsTrim r.projectCity)))
    projectState := jsToUpperCase (jsEscape (jsTrim r.projectState))
    projectDate := r.projectDate
    createdAt := now }

/-- Outcome of a POST /api/quotes request: created, rejected by the
express-validator chains, or rejected by the schema validation that save()
runs (the Mongoose ValidationError propagated to the error handler). -/
inductive CreateResult where
  | created (q : Quote)
  | badRequest (errors : List FieldError)
  | saveError
deriving DecidableEq, Repr

/-- The Quote schema's save-time validation, run by Mongoose on the
constructed document (the post-setter values) when save() is called:
required and minlength/maxlength options on the stored strings (required
fails on an empty string; the number and date fields are always present in
this typed model) plus the validation.js validators wired into the
schema. -/
def mongooseValid (now : Int) (q : Quote) : Bool :=
  (!q.contractorName.data.isEmpty &&
    (decide (2 ≤ jsLength q.contractorName) &&
      decide (jsLength q.contractorName ≤ 100))) &&
  (!q.company.data.isEmpty &&
    (decide (2 ≤ jsLength q.company) && decide (jsLength q.company ≤ 100))) &&
  validateRoofSize q.roofSize &&
  (!q.roofType.data.isEmpty && validateRoofType q.roofType) &&
  !q.projectCity.data.isEmpty &&
  (!q.projectState.data.isEmpty && validateStateCode q.projectState) &&
  validateDate now q.projectDate

/-- createQuote from the controller, with save() semantics: if the
collected validation result is non-empty, respond 400 with the whole error
array and persist nothing; otherwise construct the document and hand it to
save() exactly once, which persists it when it passes the schema's
save-time validation and otherwise rejects with nothing stored. -/
def createQuote (now : Int) (r : RawQuote) (store : List Quote) :
    List Quote × CreateResult :=
  let errors := runValidation now r
  if errors.isEmpty then
    let doc := persistQuote now r
    if mongooseValid now doc then (store ++ [doc], CreateResult.created doc)
    else (store, CreateResult.saveError)
  else
    (store, CreateResult.badRequest errors)

/-! ## Retrieval and export -/

/-- The Mongo filter object built by the controllers: at most a
projectState equality and a roofType equality. -/
structure MongoQuery where
  projectState : Option String
  roofTypeFilter : Option String
deriving DecidableEq, Repr

/-- Query construction in getQuotes: a field is added only when the query
parameter is truthy (present and non-empty), and state is uppercased. -/
def getQuotesQuery (state roofType : Option String) : MongoQuery :=
  { projectState :=
      match state with
      | some s => if s = "" then none else some (jsToUpperCase s)
      | none => none
    roofTypeFilter :=
      match roofType with
      | some t => if t = "" then none else some t
      | none => none }

/-- Query construction in exportQuotesCSV: same shape as getQuotes. -/
def exportQuery (state roofType : Option String) : MongoQuery :=
  { projectState :=
      match state with
      | some s => if s = "" then none else some (jsToUpperCase s)
      | none => none
    roofTypeFilter :=
      match roofType with
      | some t => if t = "" then none else some t
      | none => none }

/-- Whether a stored document matches the conjunctive filter. -/
def quoteMatches (q : MongoQuery) (x : Quote) : Bool :=
  (match q.projectState with
   | none => true
   | some s => x.projectState == s) &&
  (match q.roofTypeFilter with
   | none => true
   | some t => x.roofType == t)

/-- Stable insertion for the createdAt-descending sort. -/
def insertByCreatedAtDesc (x : Quote) : List Quote → List Quote
  | [] => [x]
  | y :: ys =>
      if y.createdAt ≤ x.createdAt then x :: y :: ys
      else y :: insertByCreatedAtDesc x ys

/-- The Mongo sort on createdAt descending (newest first), modelled as a
stable insertion sort. -/
def sortByCreatedAtDesc (l : List Quote) : List Quote :=
  l.foldr insertByCreatedAtDesc []

/-- The full sorted match list of a listing query, before skip and limit
are applied. -/
def getQuotesMatched (state roofType : Option String) (store : List Quote) :
    List Quote :=
  sortByCreatedAtDesc (store.filter (quoteMatches (getQuotesQuery state roofType)))

/-- Pagination metadata returned by getQuotes. -/
structure Pagination where
  currentPage : Nat
  totalPages : Nat
  totalQuotes : Nat
  hasMore : Bool
deriving DecidableEq, Repr

/-- The 200 response body of GET /api/quotes. -/
structure QuotesPage where
  quotes : List Quote
  pagination : Pagination
deriving DecidableEq, Repr

/-- Math.ceil of a natural division, as computed for totalPages. -/
def jsCeilDiv (total limit : Nat) : Nat := (total + limit - 1) / limit

/-- getQuotes from the controller: filter, sort createdAt descending, skip
(page-1)*limit, take limit, and compute pagination metadata from the total
unsliced match count. -/
def getQuotes (state roofType : Option String) (page limit : Nat)
    (store : List Quote) : QuotesPage :=
  let matched := getQuotesMatched state roofType store
  let total := matched.length
  { quotes := (matched.drop ((page - 1) * limit)).take limit
    pagination :=
      { currentPage := page
        totalPages := jsCeilDiv total limit
        totalQuotes := total
        hasMore := decide (page * limit < total) } }

/-- Decimal rendering of a JS number for CSV cells. Integral values render
as their decimal digits exactly as in JS; non-integral values are rendered
as a fraction here, while JS would print a decimal expansion - no claim
evaluates this function off the integers. -/
def jsNumToString (q : ℚ) : String :=
  if q.den = 1 then toString q.num
  else toString q.num ++ "/" ++ toString q.den

/-- Opaque model of Date.prototype.toLocaleDateString: a deterministic
rendering of the abstract timeline point; no claim depends on its text. -/
def toLocaleDateString (d : Int) : String := toString d

/-- The CSV header row of exportQuotesCSV. -/
def csvHeaderRow : List String :=
  ["Contractor Name", "Company", "Roof Size (sq ft)", "Roof Type",
   "Project City", "Project State", "Project Date", "Submission Date"]

/-- One data row of exportQuotesCSV: the eight cell values in order. -/
def csvDataRow (q : Quote) : List String :=
  [q.contractorName, q.company, jsNumToString q.roofSize, q.roofType,
   q.projectCity, q.projectState, toLocaleDateString q.projectDate,
   toLocaleDateString q.createdAt]

/-- The record set fetched by exportQuotesCSV: same filter construction,
find, and createdAt-descending sort as the listing, with no pagination. -/
def exportedQuotes (state roofType : Option String) (store : List Quote) :
    List Quote :=
  sortByCreatedAtDesc (store.filter (quoteMatches (exportQuery state roofType)))

/-- exportQuotesCSV from the controller: header row plus one row per
fetched quote, each row joined with commas and the rows joined with
newlines - the cell values are emitted verbatim. -/
def exportQuotesCSV (state roofType : Option String) (store : List Quote) :
    String :=
  let quotes := exportedQuotes state roofType store
  let csvRows := csvHeaderRow :: quotes.map csvDataRow
  String.intercalate "\n" (csvRows.map (String.intercalate ","))

/-- formatField from server/src/utils/csvGenerator.js, the repository's own
CSV quoting helper (which the controller's test suite expects the export
endpoint to use): wrap in double quotes and double each embedded double
quote whenever the value contains a comma, a newline or a double quote. -/
def formatField (s : String) : String :=
  if s.data.contains ',' || s.data.contains '\n' || s.data.contains '"' then
    "\"" ++ ⟨s.data.flatMap (fun c => if c = '"' then ['"', '"'] else [c])⟩ ++ "\""
  else s

/-! ## Auxiliary predicates and concrete sample data -/

/-- Strings untouched by the escape() sanitizer: no character of the
rewritten set occurs. -/
def hasNoEscapeTarget (s : String) : Bool :=
  s.data.all (fun c => !isEscapeTarget c)

/-- Newest-first order on stored quotes: creation time descending. -/
def createdAtDescRel (a b : Quote) : Prop := b.createdAt ≤ a.createdAt

/-- A submission whose every field passes its validator and whose
contractor name carries an apostrophe. -/
def rawOBrien : RawQuote :=
  { contractorName := "O'Brien"
    company := "Smith Roofing"
    roofSize := 2500
    roofType := "Metal"
    projectCity := "Austin"
    projectState := "TX"
    projectDate := 100 }

/-- A submission with an invalid contractor name, state and date. -/
def demoInvalidRaw : RawQuote :=
  { contractorName := "J"
    company := "Smith Roofing"
    roofSize := 2500
    roofType := "Metal"
    projectCity := "Austin"
    projectState := "tx"
    projectDate := -5 }

/-- A fully valid submission without escape-target characters. -/
def demoValidRaw : RawQuote :=
  { contractorName := "John Smith"
    company := "Smith Roofing LLC"
    roofSize := 2500
    roofType := "Metal"
    projectCity := "Austin"
    projectState := "TX"
    projectDate := 100 }

/-- A stored document whose company value contains a comma and double
quotes, exercising the CSV quoting rule. -/
def quoteOBrien : Quote :=
  { contractorName := "John Smith"
    company := "O'Brien, \"Pro\" Roofing"
    roofSize := 2500
    roofType := "Metal"
    projectCity := "Austin"
    projectState := "TX"
    projectDate := 7
    createdAt := 3 }

/-- Sample stored documents with distinct creation times. -/
def demoQuoteA : Quote :=
  { contractorName := "John Smith"
    company := "Smith Roofing"
    roofSize := 2500
    roofType := "Metal"
    projectCity := "Austin"
    projectState := "TX"
    projectDate := 100
    createdAt := 1 }

/-- Second sample stored document. -/
def demoQuoteB : Quote :=
  { contractorName := "Jane Doe"
    company := "Doe Roofing"
    roofSize := 800
    roofType := "TPO"
    projectCity := "Dallas"
    projectState := "TX"
    projectDate := 200
    createdAt := 2 }

/-- Third sample stored document. -/
def demoQuoteC : Quote :=
  { contractorName := "Al Green"
    company := "Green Co"
    roofSize := 50
    roofType := "Foam"
    projectCity := "Miami"
    projectState := "FL"
    projectDate := 300
    createdAt := 3 }

/-- A sample store snapshot. -/
def demoStore : List Quote := [demoQuoteA, demoQuoteB, demoQuoteC]

/-! ## Character and string lemmas -/

theorem char_toNat_ofNat (n : Nat) (h : n < 55296) : (Char.ofNat n).toNat = n := by
  have hv : Nat.isValidChar n := Or.inl h
  simp only [Char.ofNat, dif_pos hv]
  rfl

theorem jsCharUpper_lower (c : Char) :
    jsCharUpper (jsCharLower c) = jsCharUpper (jsCharUpper c) := by
  unfold jsCharLower jsCharUpper
  by_cases h1 : 65 ≤ c.toNat ∧ c.toNat ≤ 90
  · have h3 : ¬ (97 ≤ c.toNat ∧ c.toNat ≤ 122) := by omega
    have e1 : (Char.ofNat (c.toNat + 32)).toNat = c.toNat + 32 :=
      char_toNat_ofNat _ (by omega)
    rw [if_pos h1, e1, if_pos (show 97 ≤ c.toNat + 32 ∧ c.toNat + 32 ≤ 122 by omega),
      if_neg h3, if_neg h3]
    have e2 : c.toNat + 32 - 32 = c.toNat := by omega
    rw [e2, Char.ofNat_toNat]
  · rw [if_neg h1]
    by_cases h4 : 97 ≤ c.toNat ∧ c.toNat ≤ 122
    · have e2 : (Char.ofNat (c.toNat - 32)).toNat = c.toNat - 32 :=
        char_toNat_ofNat _ (by omega)
      rw [if_pos h4, e2,
        if_neg (show ¬ (97 ≤ c.toNat - 32 ∧ c.toNat - 32 ≤ 122) by omega)]
    · rw [if_neg h4, if_neg h4]

theorem jsCharUpper_idem (c : Char) : jsCharUpper (jsCharUpper c) = jsCharUpper c := by
  unfold jsCharUpper
  by_cases h : 97 ≤ c.toNat ∧ c.toNat ≤ 122
  · have e : (Char.ofNat (c.toNat - 32)).toNat = c.toNat - 32 :=
      char_toNat_ofNat _ (by omega)
    rw [if_pos h, e,
      if_neg (show ¬ (97 ≤ c.toNat - 32 ∧ c.toNat - 32 ≤ 122) by omega)]
  · rw [if_neg h, if_neg h]

theorem jsToUpperCase_lower_eq_upper (s : String) :
    jsToUpperCase (jsToLowerCase s) = jsToUpperCase (jsToUpperCase s) := by
  unfold jsToUpperCase jsToLowerCase
  simp only [List.map_map]
  exact congrArg String.mk (List.map_congr_left fun c _ => jsCharUpper_lower c)

theorem jsToUpperCase_idem (s : String) :
    jsToUpperCase (jsToUpperCase s) = jsToUpperCase s := by
  unfold jsToUpperCase
  simp only [List.map_map]
  exact congrArg String.mk (List.map_congr_left fun c _ => jsCharUpper_idem c)

theorem jsToLowerCase_eq_empty_iff (s : String) : jsToLowerCase s = "" ↔ s.data = [] := by
  unfold jsToLowerCase
  constructor
  · intro h
    have := congrArg String.data h
    simpa using this
  · intro h
    rw [h]
    rfl

theorem jsToUpperCase_eq_empty_iff (s : String) : jsToUpperCase s = "" ↔ s.data = [] := by
  unfold jsToUpperCase
  constructor
  · intro h
    have := congrArg String.data h
    simpa using this
  · intro h
    rw [h]
    rfl

/-! ## Query congruence helpers -/

theorem getQuotes_congr_query {s₁ rt₁ s₂ rt₂ : Option String}
    (h : getQuotesQuery s₁ rt₁ = getQuotesQuery s₂ rt₂) (page limit : Nat)
    (store : List Quote) :
    getQuotes s₁ rt₁ page limit store = getQuotes s₂ rt₂ page limit store := by
  unfold getQuotes getQuotesMatched
  rw [h]

theorem exportQuotesCSV_congr_query {s₁ rt₁ s₂ rt₂ : Option String}
    (h : exportQuery s₁ rt₁ = exportQuery s₂ rt₂) (store : List Quote) :
    exportQuotesCSV s₁ rt₁ store = exportQuotesCSV s₂ rt₂ store := by
  unfold exportQuotesCSV exportedQuotes
  rw [h]

theorem exportQuery_eq_getQuotesQuery (s rt : Option String) :
    exportQuery s rt = getQuotesQuery s rt := rfl

/-! ## Claim C1 -/

/-- C1: the server per-field validator and the persistence-layer validator
do not make the same accept/reject decision on every roofSize. At
1,000,000 the server validator, whose isFloat upper bound is strict,
rejects while the persistence-layer validator (inclusive bound) accepts;
and on the positive values below 10^-6, whose string rendering is
exponential, the server's isNumeric check rejects while the persistence
layer accepts. The layers agree everywhere else. -/
theorem mkRat_millionth : mkRat 1 1000000 = 1 / 1000000 := by
  rw [Rat.mkRat_eq_div]
  norm_num

theorem mkRat_neg_millionth : mkRat (-1) 1000000 = -(1 / 1000000) := by
  rw [Rat.mkRat_eq_div]
  push_cast
  ring

theorem roofSize_validator_layers_disagree :
    serverValidRoofSize 1000000 = false ∧ validateRoofSize 1000000 = true ∧
    ∀ q : ℚ, (serverValidRoofSize q = validateRoofSize q) ↔
      ¬ (q = 1000000 ∨ (0 < q ∧ q < 1 / 1000000)) := by
  refine ⟨by decide, by decide, ?_⟩
  intro q
  unfold serverValidRoofSize roofSizeIsNumeric jsRendersExponential
    roofSizeFloatRange validateRoofSize
  rw [mkRat_millionth, mkRat_neg_millionth]
  by_cases h2 : 0 < q
  · have hne : q ≠ 0 := ne_of_gt h2
    have hsmall : (0 : ℚ) < 1 / 1000000 := by norm_num
    have hA : -(1 / 1000000 : ℚ) < q := by linarith
    have hnle2 : ¬ q ≤ -(1 / 1000000 : ℚ) := by
      intro h
      linarith
    have hD : ¬ q ≤ -(1000000000000000000000 : ℚ) := by linarith
    by_cases h3 : q < 1 / 1000000
    · have hnle : ¬ (1 / 1000000 : ℚ) ≤ q := not_le.mpr h3
      have hlt6 : q < 1000000 := by
        have : (1 / 1000000 : ℚ) < 1000000 := by norm_num
        linarith
      have hbig : ¬ (1000000000000000000000 : ℚ) ≤ q := by linarith
      have hne6 : ¬ q = 1000000 := by
        intro h
        rw [h] at h3
        norm_num at h3
      have hle6 : q ≤ 1000000 := le_of_lt hlt6
      simp [h2, h3, hne, hA, hnle, hnle2, hlt6, hle6, hbig, hne6, -one_div]
    · have hflip : (1 / 1000000 : ℚ) ≤ q := not_lt.mp h3
      by_cases h6 : (1000000000000000000000 : ℚ) ≤ q
      · have hgt : ¬ q ≤ 1000000 := by linarith
        have hne6 : ¬ q = 1000000 := by
          intro h
          rw [h] at h6
          norm_num at h6
        simp [h2, h3, hne, hA, hnle2, h6, hflip, hgt, hne6, -one_div]
      · by_cases h1 : q = 1000000
        · subst h1
          norm_num
        · have hiff : (q < 1000000) ↔ (q ≤ 1000000) :=
            ⟨le_of_lt, fun h => lt_of_le_of_ne h h1⟩
          simp [h2, h3, h6, hne, hA, hnle2, hD, hflip, h1,
            decide_eq_decide.mpr hiff, -one_div]
  · have hq6 : ¬ q = 1000000 := by
      intro h
      rw [h] at h2
      norm_num at h2
    simp [h2, hq6]

/-! ## Claim C8 -/

/-- C8 counterexample: validateStateCode applied to the non-string value
null does not return a boolean; the receiver of toUpperCase is not a
string, so the call throws a TypeError. -/
theorem validateStateCode_on_null_is_not_boolean :
    ¬ ∃ b : Bool, validateStateCodeJS JSVal.null = Except.ok b := by
  rintro ⟨b, hb⟩
  simp [validateStateCodeJS] at hb

/-- C8 amended: validateStateCode yields a boolean exactly on string inputs
and throws a TypeError on every non-string value, while a validator such as
validateRoofType, built on Array.includes, yields a boolean on every JS
value. -/
theorem validateStateCodeJS_boolean_iff_string (v : JSVal) :
    ((∃ b, validateStateCodeJS v = Except.ok b) ↔ ∃ s, v = JSVal.str s) ∧
    ∃ b, validateRoofTypeJS v = Except.ok b := by
  cases v <;> simp [validateStateCodeJS, validateRoofTypeJS]

/-! ## Claim C9 -/

/-- C9: supplying state or roofType as the empty string builds the same
query object as omitting the filter, so the listing response and the CSV
export are unchanged. -/
theorem empty_string_filter_no_constraint (state roofType : Option String)
    (page limit : Nat) (store : List Quote) :
    getQuotes (some "") roofType page limit store =
      getQuotes none roofType page limit store ∧
    getQuotes state (some "") page limit store =
      getQuotes state none page limit store ∧
    exportQuotesCSV (some "") roofType store =
      exportQuotesCSV none roofType store ∧
    exportQuotesCSV state (some "") store =
      exportQuotesCSV state none store := by
  refine ⟨getQuotes_congr_query ?_ _ _ _, getQuotes_congr_query ?_ _ _ _,
    exportQuotesCSV_congr_query ?_ _, exportQuotesCSV_congr_query ?_ _⟩ <;>
    simp [getQuotesQuery, exportQuery]

/-! ## Claim C6 -/

theorem getQuotesQuery_lower_upper (s : String) (rt : Option String) :
    getQuotesQuery (some (jsToLowerCase s)) rt =
      getQuotesQuery (some (jsToUpperCase s)) rt := by
  unfold getQuotesQuery
  dsimp only
  by_cases hs : s.data = []
  · rw [if_pos ((jsToLowerCase_eq_empty_iff s).mpr hs),
      if_pos ((jsToUpperCase_eq_empty_iff s).mpr hs)]
  · rw [if_neg (fun h => hs ((jsToLowerCase_eq_empty_iff s).mp h)),
      if_neg (fun h => hs ((jsToUpperCase_eq_empty_iff s).mp h)),
      jsToUpperCase_lower_eq_upper]

/-- C6: the retrieval filter uppercases the state parameter before
matching, so the lowercase and uppercase spellings of any state string
produce identical listing responses; and validateStateCode accepts a state
code regardless of letter case, deciding exactly as on the uppercased
spelling. -/
theorem state_filter_case_insensitive (s : String) (roofType : Option String)
    (page limit : Nat) (store : List Quote) :
    getQuotes (some (jsToLowerCase s)) roofType page limit store =
      getQuotes (some (jsToUpperCase s)) roofType page limit store ∧
    validateStateCode (jsToLowerCase s) = validateStateCode (jsToUpperCase s) ∧
    validateStateCode s = validateStateCode (jsToUpperCase s) := by
  refine ⟨getQuotes_congr_query (getQuotesQuery_lower_upper s roofType) _ _ _, ?_, ?_⟩
  · unfold validateStateCode
    rw [jsToUpperCase_lower_eq_upper, jsToUpperCase_idem]
  · unfold validateStateCode
    rw [jsToUpperCase_idem]

/-! ## Sorting lemmas -/

theorem mem_insertByCreatedAtDesc {w x : Quote} :
    ∀ {l : List Quote}, w ∈ insertByCreatedAtDesc x l → w = x ∨ w ∈ l := by
  intro l
  induction l with
  | nil =>
      intro h
      unfold insertByCreatedAtDesc at h
      exact Or.inl (List.mem_singleton.mp h)
  | cons y ys ih =>
      intro h
      unfold insertByCreatedAtDesc at h
      split at h
      · rcases List.mem_cons.mp h with h1 | h1
        · exact Or.inl h1
        · exact Or.inr h1
      · rcases List.mem_cons.mp h with h1 | h1
        · exact Or.inr (h1 ▸ List.mem_cons_self y ys)
        · rcases ih h1 with h2 | h2
          · exact Or.inl h2
          · exact Or.inr (List.mem_cons_of_mem y h2)

theorem sorted_insertByCreatedAtDesc (x : Quote) :
    ∀ {l : List Quote}, List.Sorted createdAtDescRel l →
      List.Sorted createdAtDescRel (insertByCreatedAtDesc x l) := by
  intro l
  induction l with
  | nil =>
      intro _
      unfold insertByCreatedAtDesc
      simp
  | cons y ys ih =>
      intro hs
      rw [List.sorted_cons] at hs
      obtain ⟨hy, hys⟩ := hs
      unfold insertByCreatedAtDesc
      split
      case isTrue hle =>
        rw [List.sorted_cons]
        refine ⟨?_, List.sorted_cons.mpr ⟨hy, hys⟩⟩
        intro b hb
        rcases List.mem_cons.mp hb with h1 | h1
        · show b.createdAt ≤ x.createdAt
          rw [h1]
          exact hle
        · exact le_trans (hy b h1) hle
      case isFalse hlt =>
        rw [List.sorted_cons]
        refine ⟨?_, ih hys⟩
        intro b hb
        rcases mem_insertByCreatedAtDesc hb with h1 | h1
        · show b.createdAt ≤ y.createdAt
          rw [h1]
          exact le_of_lt (not_le.mp hlt)
        · exact hy b h1

theorem sorted_sortByCreatedAtDesc (l : List Quote) :
    List.Sorted createdAtDescRel (sortByCreatedAtDesc l) := by
  induction l with
  | nil => simp [sortByCreatedAtDesc]
  | cons a l ih => exact sorted_insertByCreatedAtDesc a ih

/-! ## Claim C10 -/

/-- C10: the CSV export fetches exactly the listing's full filtered match
list, in the listing's default createdAt-descending (newest first) order,
and its emitted text is the header row followed by one comma-joined data
row per quote in that order. -/
theorem csv_rows_sorted_newest_first (state roofType : Option String)
    (store : List Quote) :
    exportedQuotes state roofType store = getQuotesMatched state roofType store ∧
    List.Sorted createdAtDescRel (exportedQuotes state roofType store) ∧
    exportQuotesCSV state roofType store =
      String.intercalate "\n"
        ((csvHeaderRow :: (getQuotesMatched state roofType store).map csvDataRow).map
          (String.intercalate ",")) := by
  have he : exportedQuotes state roofType store = getQuotesMatched state roofType store := by
    unfold exportedQuotes getQuotesMatched
    rw [exportQuery_eq_getQuotesQuery]
  refine ⟨he, ?_, ?_⟩
  · unfold exportedQuotes
    exact sorted_sortByCreatedAtDesc _
  · unfold exportQuotesCSV
    rw [he]

/-! ## Paging lemma and claim C3 -/

theorem mem_iff_mem_some_page {α : Type} (l : List α) (limit : Nat)
    (hl : 1 ≤ limit) (x : α) :
    x ∈ l ↔ ∃ page : Nat, 1 ≤ page ∧
      x ∈ (l.drop ((page - 1) * limit)).take limit := by
  constructor
  · intro hx
    obtain ⟨i, hi, heq⟩ := List.mem_iff_getElem.mp hx
    refine ⟨i / limit + 1, Nat.le_add_left 1 _, ?_⟩
    rw [Nat.add_sub_cancel]
    have hdm : i / limit * limit + i % limit = i := by
      rw [Nat.mul_comm]
      exact Nat.div_add_mod i limit
    have hml : i % limit < limit := Nat.mod_lt i (by omega)
    apply List.mem_iff_getElem?.mpr
    refine ⟨i % limit, ?_⟩
    rw [List.getElem?_take_of_lt hml, List.getElem?_drop, hdm,
      List.getElem?_eq_getElem hi, heq]
  · rintro ⟨p, _, hmem⟩
    exact List.mem_of_mem_drop (List.mem_of_mem_take hmem)

/-- C3: the two read paths build the same conjunctive query, and a record
belongs to the CSV export's record set exactly when some listing page (at
the same filters) contains it: the union over all pages of the listing
equals the exported set. -/
theorem listing_pages_union_eq_csv_export (state roofType : Option String)
    (store : List Quote) (limit : Nat) (hl : 1 ≤ limit) :
    getQuotesQuery state roofType = exportQuery state roofType ∧
    ∀ x : Quote, x ∈ exportedQuotes state roofType store ↔
      ∃ page : Nat, 1 ≤ page ∧
        x ∈ (getQuotes state roofType page limit store).quotes := by
  constructor
  · rfl
  · intro x
    have he : exportedQuotes state roofType store =
        getQuotesMatched state roofType store := by
      unfold exportedQuotes getQuotesMatched
      rw [exportQuery_eq_getQuotesQuery]
    rw [he]
    have hq : ∀ page : Nat, (getQuotes state roofType page limit store).quotes =
        ((getQuotesMatched state roofType store).drop ((page - 1) * limit)).take limit := by
      intro page
      rfl
    simp only [hq]
    exact mem_iff_mem_some_page (getQuotesMatched state roofType store) limit hl x

/-- Witness for C3 at a concrete filter, store and page size. -/
theorem listing_pages_union_eq_csv_export_witness :
    getQuotesQuery (some "tx") none = exportQuery (some "tx") none ∧
    ∀ x : Quote, x ∈ exportedQuotes (some "tx") none demoStore ↔
      ∃ page : Nat, 1 ≤ page ∧
        x ∈ (getQuotes (some "tx") none page 1 demoStore).quotes :=
  listing_pages_union_eq_csv_export (some "tx") none demoStore 1 (by decide)

/-! ## Pagination arithmetic and claim C5 -/

theorem le_jsCeilDiv_mul (t l : Nat) (hl : 0 < l) : t ≤ jsCeilDiv t l * l := by
  have h1 : t + l - 1 ≤ l * jsCeilDiv t l + (l - 1) :=
    (Nat.div_le_iff_le_mul_add_pred hl).mp (Nat.le_refl _)
  have h2 : t + (l - 1) ≤ l * jsCeilDiv t l + (l - 1) := by
    rwa [Nat.add_sub_assoc hl] at h1
  have h3 : t ≤ l * jsCeilDiv t l := Nat.le_of_add_le_add_right h2
  rw [Nat.mul_comm] at h3
  exact h3

theorem jsCeilDiv_eq_ceil (t l : Nat) (hl : 0 < l) :
    (jsCeilDiv t l : ℤ) = ⌈(t : ℚ) / (l : ℚ)⌉ := by
  have hl0 : (0 : ℚ) < (l : ℚ) := by exact_mod_cast hl
  apply le_antisymm
  · rcases Nat.eq_zero_or_pos (jsCeilDiv t l) with h0 | h0
    · rw [h0]
      exact_mod_cast Int.ceil_nonneg (by positivity)
    · have hstep : ((jsCeilDiv t l : ℤ) - 1) < ⌈(t : ℚ) / (l : ℚ)⌉ := by
        rw [Int.lt_ceil]
        rw [lt_div_iff₀ hl0]
        have hq : jsCeilDiv t l * l ≤ t + l - 1 := Nat.div_mul_le_self _ _
        have hcast : ((jsCeilDiv t l : ℚ)) * l ≤ (t : ℚ) + l - 1 := by
          have h1 : ((t : ℚ) + l - 1) = ((t + l - 1 : ℕ) : ℚ) := by
            push_cast [Nat.cast_sub (show 1 ≤ t + l by omega)]
            ring
          rw [h1]
          exact_mod_cast hq
        push_cast
        have hl1 : (1 : ℚ) ≤ (l : ℚ) := by exact_mod_cast hl
        have hexp : ((jsCeilDiv t l : ℚ) - 1) * l = (jsCeilDiv t l : ℚ) * l - l := by
          ring
        rw [hexp]
        linarith [hcast, hl1]
      omega
  · rw [Int.ceil_le]
    rw [div_le_iff₀ hl0]
    have h3 : t ≤ jsCeilDiv t l * l := le_jsCeilDiv_mul t l hl
    push_cast
    exact_mod_cast Nat.cast_le.mpr h3

/-- C5: the listing's pagination metadata is computed from the total
unsliced match count: totalPages is the ceiling of totalQuotes over limit,
hasMore holds exactly when page times limit is below totalQuotes, and any
page beyond totalPages yields an empty quotes array with hasMore false. -/
theorem getQuotes_pagination_spec (state roofType : Option String)
    (store : List Quote) (page limit : Nat) (hp : 1 ≤ page) (hl : 1 ≤ limit) :
    ((getQuotes state roofType page limit store).pagination.totalPages : ℤ) =
      ⌈((getQuotes state roofType page limit store).pagination.totalQuotes : ℚ) /
        (limit : ℚ)⌉ ∧
    ((getQuotes state roofType page limit store).pagination.hasMore = true ↔
      page * limit <
        (getQuotes state roofType page limit store).pagination.totalQuotes) ∧
    ((getQuotes state roofType page limit store).pagination.totalPages < page →
      (getQuotes state roofType page limit store).quotes = [] ∧
      (getQuotes state roofType page limit store).pagination.hasMore = false) := by
  have htp : (getQuotes state roofType page limit store).pagination.totalPages =
      jsCeilDiv (getQuotesMatched state roofType store).length limit := rfl
  have htq : (getQuotes state roofType page limit store).pagination.totalQuotes =
      (getQuotesMatched state roofType store).length := rfl
  have hhm : (getQuotes state roofType page limit store).pagination.hasMore =
      decide (page * limit < (getQuotesMatched state roofType store).length) := rfl
  have hqs : (getQuotes state roofType page limit store).quotes =
      ((getQuotesMatched state roofType store).drop ((page - 1) * limit)).take limit :=
    rfl
  refine ⟨?_, ?_, ?_⟩
  · rw [htp, htq]
    exact jsCeilDiv_eq_ceil _ limit hl
  · rw [hhm, htq]
    exact decide_eq_true_iff
  · intro hbeyond
    rw [htp] at hbeyond
    have hcover : (getQuotesMatched state roofType store).length ≤
        jsCeilDiv (getQuotesMatched state roofType store).length limit * limit :=
      le_jsCeilDiv_mul _ limit hl
    have hmono : jsCeilDiv (getQuotesMatched state roofType store).length limit * limit ≤
        (page - 1) * limit :=
      Nat.mul_le_mul_right limit (by omega)
    have hlen : (getQuotesMatched state roofType store).length ≤ (page - 1) * limit :=
      le_trans hcover hmono
    constructor
    · rw [hqs, List.drop_eq_nil_of_le hlen]
      exact List.take_nil
    · rw [hhm]
      apply decide_eq_false
      have hstep : (page - 1) * limit ≤ page * limit :=
        Nat.mul_le_mul_right limit (by omega)
      exact not_lt.mpr (le_trans hlen hstep)

/-- Witness for C5 at a concrete store, page and limit. -/
theorem getQuotes_pagination_spec_witness :
    ((getQuotes none none 5 2 demoStore).pagination.totalPages : ℤ) =
      ⌈((getQuotes none none 5 2 demoStore).pagination.totalQuotes : ℚ) / (2 : ℚ)⌉ ∧
    ((getQuotes none none 5 2 demoStore).pagination.hasMore = true ↔
      5 * 2 < (getQuotes none none 5 2 demoStore).pagination.totalQuotes) ∧
    ((getQuotes none none 5 2 demoStore).pagination.totalPages < 5 →
      (getQuotes none none 5 2 demoStore).quotes = [] ∧
      (getQuotes none none 5 2 demoStore).pagination.hasMore = false) :=
  getQuotes_pagination_spec none none demoStore 5 2 (by decide) (by decide)


theorem exists_mem_ite_nil_iff (c : Bool) (e : FieldError) (P : FieldError → Prop) :
    (∃ x ∈ (if c then ([] : List FieldError) else [e]), P x) ↔ c = false ∧ P e := by
  cases c <;> simp

theorem exists_mem_ite_chain_iff (c₁ c₂ : Prop) [Decidable c₁] [Decidable c₂]
    (e₁ e₂ : FieldError) (P : FieldError → Prop) :
    (∃ x ∈ (if c₁ then [e₁] else if c₂ then [e₂] else ([] : List FieldError)), P x) ↔
      (c₁ ∧ P e₁) ∨ (¬c₁ ∧ c₂ ∧ P e₂) := by
  split
  case isTrue h => simp [h]
  case isFalse h => split <;> simp [*]

theorem mem_runValidation_iff (now : Int) (r : RawQuote) (f : QField) :
    (∃ e ∈ runValidation now r, e.field = f.key) ↔ fieldValid now r f = false := by
  cases f <;>
    simp only [runValidation, contractorNameErrors, companyErrors, roofSizeErrors,
      roofTypeErrors, projectCityErrors, projectStateErrors, projectDateErrors,
      fieldValid, QField.key, List.mem_append, or_and_right, exists_or,
      exists_mem_ite_nil_iff, exists_mem_ite_chain_iff] <;>
    simp [projectDateIsDate, not_lt]
  case contractorName =>
    cases hl : lengthBetween2And100 (jsTrim r.contractorName) <;>
      cases hm : matchesNameClass (jsTrim r.contractorName) <;> simp_all
  case roofSize =>
    cases hn : roofSizeIsNumeric r.roofSize <;>
      cases hf : roofSizeFloatRange r.roofSize <;> simp_all
  case projectState =>
    by_cases h : jsLength (jsTrim r.projectState) = 2 <;>
      cases hu : isUppercaseCheck (jsTrim r.projectState) <;>
        cases hm : matchesTwoUpperLetters (jsTrim r.projectState) <;> simp_all
  case projectDate => omega

/-! ## Claim C2 -/

/-- C2: when any field is invalid, createQuote persists nothing and
responds with the full error array, which names every invalid field and no
valid field. -/
theorem createQuote_rejects_with_complete_errors (now : Int) (r : RawQuote)
    (store : List Quote) (h : ∃ f : QField, fieldValid now r f = false) :
    (createQuote now r store).1 = store ∧
    ∃ errs, (createQuote now r store).2 = CreateResult.badRequest errs ∧
      ∀ f : QField, (∃ e ∈ errs, e.field = f.key) ↔ fieldValid now r f = false := by
  obtain ⟨f, hf⟩ := h
  have hne : ¬ (runValidation now r).isEmpty = true := by
    intro hemp
    rcases (mem_runValidation_iff now r f).mpr hf with ⟨e, he, _⟩
    rw [List.isEmpty_iff] at hemp
    rw [hemp] at he
    exact List.not_mem_nil e he
  have hc : createQuote now r store =
      (store, CreateResult.badRequest (runValidation now r)) := by
    simp only [createQuote]
    rw [if_neg hne]
  rw [hc]
  exact ⟨rfl, runValidation now r, rfl, fun f' => mem_runValidation_iff now r f'⟩

/-- Witness for C2 on a concrete invalid submission. -/
theorem createQuote_rejects_witness :
    (createQuote 0 demoInvalidRaw []).1 = [] ∧
    ∃ errs, (createQuote 0 demoInvalidRaw []).2 = CreateResult.badRequest errs ∧
      ∀ f : QField, (∃ e ∈ errs, e.field = f.key) ↔
        fieldValid 0 demoInvalidRaw f = false :=
  createQuote_rejects_with_complete_errors 0 demoInvalidRaw []
    ⟨QField.contractorName, by decide⟩

/-! ## Trim and escape lemmas for claim C7 -/

theorem dropWhile_isJsSpace_idem (l : List Char) :
    (l.dropWhile isJsSpace).dropWhile isJsSpace = l.dropWhile isJsSpace := by
  induction l with
  | nil => rfl
  | cons a l ih =>
      by_cases h : isJsSpace a = true
      · rw [List.dropWhile_cons_of_pos h]
        exact ih
      · rw [List.dropWhile_cons_of_neg h, List.dropWhile_cons_of_neg h]

theorem trimRight_trimRight (l : List Char) : trimRight (trimRight l) = trimRight l := by
  unfold trimRight
  rw [List.reverse_reverse, dropWhile_isJsSpace_idem]

theorem head_not_space_of_dropWhile_self {l : List Char}
    (h : l.dropWhile isJsSpace = l) :
    l = [] ∨ ∃ b t, l = b :: t ∧ ¬ isJsSpace b = true := by
  cases l with
  | nil => exact Or.inl rfl
  | cons b t =>
      by_cases hb : isJsSpace b = true
      · rw [List.dropWhile_cons_of_pos hb] at h
        have hlen := congrArg List.length h
        have hle := (List.dropWhile_sublist (l := t) (p := isJsSpace)).length_le
        simp at hlen
        omega
      · exact Or.inr ⟨b, t, rfl, hb⟩

theorem trimLeft_trimRight (l : List Char) (h : trimLeft l = l) :
    trimLeft (trimRight l) = trimRight l := by
  rcases head_not_space_of_dropWhile_self h with rfl | ⟨b, t, rfl, hb⟩
  · rfl
  · unfold trimRight trimLeft
    rw [List.reverse_cons, List.dropWhile_append]
    split
    · rw [List.dropWhile_cons_of_neg hb, List.reverse_singleton,
        List.dropWhile_cons_of_neg hb]
    · rw [List.reverse_append, List.reverse_singleton, List.singleton_append,
        List.dropWhile_cons_of_neg hb]

theorem jsTrim_idem (s : String) : jsTrim (jsTrim s) = jsTrim s := by
  unfold jsTrim
  dsimp only
  rw [trimLeft_trimRight (trimLeft s.data) (dropWhile_isJsSpace_idem s.data),
    trimRight_trimRight]

theorem sanitizeString_jsTrim (s : String) :
    sanitizeString (jsTrim s) = sanitizeString s := by
  unfold sanitizeString
  rw [jsTrim_idem]

theorem escChar_eq_single {c : Char} (h : isEscapeTarget c = false) :
    escChar c = [c] := by
  unfold escChar
  split_ifs with h1 h2 h3 h4 h5 h6 h7 h8 <;>
    first
      | rfl
      | (exfalso
         subst ‹c = _›
         exact absurd h (by decide))

theorem flatMap_escChar_eq_self {l : List Char}
    (h : ∀ c ∈ l, isEscapeTarget c = false) : l.flatMap escChar = l := by
  induction l with
  | nil => rfl
  | cons a l ih =>
      rw [List.flatMap_cons, escChar_eq_single (h a (List.mem_cons_self a l)),
        ih (fun c hc => h c (List.mem_cons_of_mem a hc)), List.singleton_append]

theorem jsEscape_eq_self {s : String} (h : hasNoEscapeTarget s = true) :
    jsEscape s = s := by
  unfold hasNoEscapeTarget at h
  simp only [List.all_eq_true, Bool.not_eq_true'] at h
  unfold jsEscape
  rw [flatMap_escChar_eq_self h]

theorem mem_of_mem_jsTrim {c : Char} {s : String} (h : c ∈ (jsTrim s).data) :
    c ∈ s.data := by
  unfold jsTrim trimRight trimLeft at h
  dsimp only at h
  have h2 := List.mem_reverse.mp h
  have h3 := (List.dropWhile_sublist _).subset h2
  have h4 := List.mem_reverse.mp h3
  exact (List.dropWhile_sublist _).subset h4

theorem hasNoEscapeTarget_jsTrim {s : String} (h : hasNoEscapeTarget s = true) :
    hasNoEscapeTarget (jsTrim s) = true := by
  unfold hasNoEscapeTarget at *
  simp only [List.all_eq_true] at *
  exact fun c hc => h c (mem_of_mem_jsTrim hc)

/-! ## Claim C7 -/

/-- C7 counterexample: the contractor name O'Brien passes every validator,
yet the persisted value is Ox27Brien - the escape() sanitizer rewrites the
apostrophe to an HTML entity whose punctuation the schema setter then
strips - so the stored value is not the sanitized input. -/
theorem apostrophe_not_preserved :
    (runValidation 0 rawOBrien).isEmpty = true ∧
    (createQuote 0 rawOBrien []).2 = CreateResult.created (persistQuote 0 rawOBrien) ∧
    (persistQuote 0 rawOBrien).contractorName = "Ox27Brien" ∧
    sanitizeString rawOBrien.contractorName = "O'Brien" ∧
    (persistQuote 0 rawOBrien).contractorName ≠ sanitizeString rawOBrien.contractorName := by
  refine ⟨by decide, ?_, by decide, by decide, by decide⟩
  simp only [createQuote]
  rw [if_pos (show (runValidation 0 rawOBrien).isEmpty = true by decide),
    if_pos (show mongooseValid 0 (persistQuote 0 rawOBrien) = true by decide)]

/-- C7 amended: for a submission passing every server validation chain,
the constructed document is handed to save() exactly once: it is persisted
precisely when it also passes the schema's save-time validation, and
otherwise the store is left unchanged and the request errors; each stored
free-text value is the trimmed sanitizeString image of the escape()
output - for inputs containing no escape-rewritten character, exactly the
trimmed sanitized input - and the non-text fields are stored unchanged. -/
theorem stored_fields_escape_then_sanitize (now : Int) (r : RawQuote)
    (store : List Quote) (hok : (runValidation now r).isEmpty = true)
    (hn : hasNoEscapeTarget r.contractorName = true)
    (hc : hasNoEscapeTarget r.company = true)
    (hp : hasNoEscapeTarget r.projectCity = true) :
    (mongooseValid now (persistQuote now r) = true →
      createQuote now r store =
        (store ++ [persistQuote now r],
          CreateResult.created (persistQuote now r))) ∧
    (mongooseValid now (persistQuote now r) = false →
      createQuote now r store = (store, CreateResult.saveError)) ∧
    (persistQuote now r).contractorName = jsTrim (sanitizeString r.contractorName) ∧
    (persistQuote now r).company = jsTrim (sanitizeString r.company) ∧
    (persistQuote now r).projectCity = jsTrim (sanitizeString r.projectCity) ∧
    (persistQuote now r).roofSize = r.roofSize ∧
    (persistQuote now r).roofType = r.roofType ∧
    (persistQuote now r).projectDate = r.projectDate := by
  refine ⟨?_, ?_, ?_, ?_, ?_, rfl, rfl, rfl⟩
  · intro hmv
    simp only [createQuote]
    rw [if_pos hok, if_pos hmv]
  · intro hmv
    simp only [createQuote]
    rw [if_pos hok, if_neg (by simp [hmv])]
  · show jsTrim (sanitizeString (jsEscape (jsTrim r.contractorName))) = _
    rw [jsEscape_eq_self (hasNoEscapeTarget_jsTrim hn), sanitizeString_jsTrim]
  · show jsTrim (sanitizeString (jsEscape (jsTrim r.company))) = _
    rw [jsEscape_eq_self (hasNoEscapeTarget_jsTrim hc), sanitizeString_jsTrim]
  · show jsTrim (sanitizeString (jsEscape (jsTrim r.projectCity))) = _
    rw [jsEscape_eq_self (hasNoEscapeTarget_jsTrim hp), sanitizeString_jsTrim]

/-- Witness for the amended C7 on a concrete valid submission. -/
theorem stored_fields_escape_then_sanitize_witness :
    (mongooseValid 0 (persistQuote 0 demoValidRaw) = true →
      createQuote 0 demoValidRaw [] =
        ([] ++ [persistQuote 0 demoValidRaw],
          CreateResult.created (persistQuote 0 demoValidRaw))) ∧
    (mongooseValid 0 (persistQuote 0 demoValidRaw) = false →
      createQuote 0 demoValidRaw [] = ([], CreateResult.saveError)) ∧
    (persistQuote 0 demoValidRaw).contractorName =
      jsTrim (sanitizeString demoValidRaw.contractorName) ∧
    (persistQuote 0 demoValidRaw).company =
      jsTrim (sanitizeString demoValidRaw.company) ∧
    (persistQuote 0 demoValidRaw).projectCity =
      jsTrim (sanitizeString demoValidRaw.projectCity) ∧
    (persistQuote 0 demoValidRaw).roofSize = demoValidRaw.roofSize ∧
    (persistQuote 0 demoValidRaw).roofType = demoValidRaw.roofType ∧
    (persistQuote 0 demoValidRaw).projectDate = demoValidRaw.projectDate :=
  stored_fields_escape_then_sanitize 0 demoValidRaw [] (by decide) (by decide)
    (by decide) (by decide)

/-! ## Claim C4 -/

set_option maxRecDepth 8192 in
/-- C4: the CSV export endpoint emits cell values verbatim, with no
quoting: a stored company value containing a comma and double quotes
appears unchanged in the output, whereas the repository's own formatField
helper from csvGenerator.js - which the controller's test suite expects the
endpoint to use - produces the quoted, quote-doubled cell the claim
describes. -/
theorem csv_export_emits_unescaped_cells :
    exportQuotesCSV none none [quoteOBrien] =
      "Contractor Name,Company,Roof Size (sq ft),Roof Type,Project City,Project State,Project Date,Submission Date\nJohn Smith,O'Brien, \"Pro\" Roofing,2500,Metal,Austin,TX,7,3" ∧
    formatField quoteOBrien.company = "\"O'Brien, \"\"Pro\"\" Roofing\"" ∧
    String.intercalate "," (csvDataRow quoteOBrien) ≠
      String.intercalate "," ["John Smith", formatField quoteOBrien.company,
        "2500", "Metal", "Austin", "TX", "7", "3"] := by
  refine ⟨rfl, rfl, by decide⟩

end EnKoat

